import Mathlib

/-!
Shallow embedding of `torch2trt/handlers/ops.py` (operator handlers that
translate traced graph nodes either into TensorRT engine layers, in
"conversion mode", or into real tensor computations, in "fallback mode").

Modelling conventions:
* Real tensors and numpy host buffers carry a shape, a dtype tag and flat
  rational data; float arithmetic is embedded as exact rational arithmetic.
* A symbolic TRT tensor is a handle (an id into the network under
  construction) together with its batch-excluded shape.  Output handles of
  freshly built layers carry an empty shape: output-shape inference is done
  by the engine (an external boundary) and is not modelled.
* The active network (`current_network()`) is passed explicitly as an
  `Option Network`; the network is a list of layers in construction order,
  and Python attribute mutation (`layer.stride = ...`) is modelled by
  updating the most recently added layer.
* A Python exception (failed `assert`, TypeError, IndexError, ...) is a
  `none` result; the network component of the result is the network state
  at the moment of the failure, so non-atomic failures are observable.
* External library calls used only by fallback paths (torch functional ops)
  and `np.sqrt` are parameters of the embedding, collected in `Lib`.
-/

namespace Torch2TRT

/-- Numeric dtypes tracked by the embedding (the ones that occur in the
handlers: float32/float64 payloads and int64 index tensors). -/
inductive DType where
  | f32
  | f64
  | i64
deriving DecidableEq

/-- A concrete torch tensor: shape, dtype, flat row-major data. -/
structure TorchTensor where
  shape : List ℕ
  dtype : DType
  data : List ℚ
deriving DecidableEq

/-- A symbolic TensorRT tensor handle: an id into the network being built,
plus its batch-excluded shape (TRT convention). -/
structure TRTTensor where
  tid : ℕ
  shape : List ℕ
deriving DecidableEq

/-- A numpy host buffer (weights / constant payload). -/
structure NPArray where
  shape : List ℕ
  dtype : DType
  data : List ℚ
deriving DecidableEq

/-- The tagged union of handler input values: real tensors, symbolic TRT
tensors, scalars, scalar lists and Python `None`. -/
inductive Value where
  | tensor (t : TorchTensor)
  | trt (t : TRTTensor)
  | int (n : ℤ)
  | rat (q : ℚ)
  | bool (b : Bool)
  | ints (ns : List ℤ)
  | pynone
deriving DecidableEq

def Value.isTensor : Value → Bool
  | .tensor _ => true
  | _ => false

def Value.isTrt : Value → Bool
  | .trt _ => true
  | _ => false

/-- Python truthiness (`bool(x)`) for the scalar-like values; `none` for
values whose truthiness the handlers never rely on (tensors). -/
def Value.toBool? : Value → Option Bool
  | .bool b => some b
  | .int n => some (decide (n ≠ 0))
  | .rat q => some (decide (q ≠ 0))
  | .pynone => some false
  | .ints ns => some (decide (ns ≠ []))
  | .tensor _ => Option.none
  | .trt _ => Option.none

/-- Python `x == 1` for the alpha/beta scale arguments. -/
def Value.isOne : Value → Bool
  | .int n => n == 1
  | .rat q => q == 1
  | .bool b => b
  | _ => false

/-- Shape of a tensor-like value (`x.shape`); `none` models the
AttributeError a non-tensor would raise. -/
def Value.shape? : Value → Option (List ℕ)
  | .tensor t => some t.shape
  | .trt t => some t.shape
  | _ => Option.none

/-- Modelled from the spec: `torch2trt.core.has_trt_tensor` (§4.3) is not
under src/; it reports whether at least one element of the input list is a
symbolic engine tensor handle (the embedded handlers only pass flat lists,
so the one-level nesting mentioned by the spec does not arise here). -/
def has_trt_tensor (inputs : List Value) : Bool := inputs.any Value.isTrt

def prodNat (l : List ℕ) : ℕ := l.foldr (fun a b => a * b) 1

/-- numpy `arr.size`: the number of elements, the product of the shape. -/
def NPArray.size (a : NPArray) : ℕ := prodNat a.shape

/-- `t.detach().cpu().numpy()`: copy a torch tensor to a host buffer,
preserving shape, dtype and data. -/
def toNumpy (t : TorchTensor) : NPArray := ⟨t.shape, t.dtype, t.data⟩

/-- `np.array(a, dtype=np.float32)` / `a.astype(np.float32)`. -/
def castF32 (a : NPArray) : NPArray := ⟨a.shape, .f32, a.data⟩

/-- `np.array(q, dtype=np.float32)`: a zero-dimensional float32 array. -/
def scalar32 (q : ℚ) : NPArray := ⟨[], .f32, [q]⟩

/-- numpy unary negation `-a`. -/
def npNeg (a : NPArray) : NPArray := ⟨a.shape, a.dtype, a.data.map Neg.neg⟩

/-- numpy dtype for a true division / float op on this dtype. -/
def DType.toFloat : DType → DType
  | .i64 => .f64
  | d => d

/-- numpy `1 / a` (elementwise reciprocal; division is total on ℚ, with
`1 / 0 = 0` standing in for the non-raising `inf` numpy produces). -/
def npRecip (a : NPArray) : NPArray := ⟨a.shape, a.dtype.toFloat, a.data.map (fun x => 1 / x)⟩

/-- numpy dtype promotion for a binary op on two same-shape arrays. -/
def DType.promote : DType → DType → DType
  | .f64, _ => .f64
  | _, .f64 => .f64
  | .f32, _ => .f32
  | _, .f32 => .f32
  | .i64, .i64 => .i64

/-- Elementwise binary numpy op on two (same-shape) arrays. -/
def npZip (f : ℚ → ℚ → ℚ) (a b : NPArray) : NPArray :=
  ⟨a.shape, DType.promote a.dtype b.dtype, List.zipWith f a.data b.data⟩

/-- Elementwise unary numpy op keeping the dtype (array + scalar, sqrt of a
float array, ...). -/
def npMap (f : ℚ → ℚ) (a : NPArray) : NPArray := ⟨a.shape, a.dtype, a.data.map f⟩

/-- `np.ones_like(a)`. -/
def onesLike (a : NPArray) : NPArray := ⟨a.shape, a.dtype, a.data.map (fun _ => 1)⟩

/-- `trt.Weights()`: an empty float32 weights buffer. -/
def emptyWeights : NPArray := ⟨[0], .f32, []⟩

inductive PoolingType where
  | MAX
  | AVERAGE
deriving DecidableEq

inductive ElementWiseOperation where
  | SUM
  | SUB
  | PROD
  | DIV
deriving DecidableEq

inductive ReduceOperation where
  | SUM
  | MAX
deriving DecidableEq

inductive ScaleMode where
  | UNIFORM
  | CHANNEL
deriving DecidableEq

inductive ActivationType where
  | RELU
deriving DecidableEq

/-- Mutable fields of a TRT pooling layer; `none` = not yet assigned by the
handler (the engine's defaults are not modelled). -/
structure PoolParams where
  ptype : PoolingType
  window : List ℤ
  stride : Option (List ℤ)
  padding : Option (List ℤ)
  avgExcludesPadding : Option Bool
deriving DecidableEq

/-- The engine layers constructed by the embedded handlers.  Layer inputs
are recorded as the `Value`s the handler handed to the builder call. -/
inductive Layer where
  | pooling (inp : Value) (p : PoolParams)
  | scaleL (inp : Value) (mode : ScaleMode) (shift scaleW power : NPArray)
  | elementwise (lhs rhs : Value) (op : ElementWiseOperation)
  | constantL (shape : List ℕ) (w : NPArray)
  | reduce (inp : Value) (op : ReduceOperation) (axes : ℕ) (keepdims : Bool)
  | activation (inp : Value) (atype : ActivationType)
  | convolution (inp : Value) (outChannels : ℤ) (kernel : List ℤ) (w b : NPArray)
      (stride padding dilation : Option (List ℤ)) (numGroups : Option ℤ)
  | deconvolution (inp : Value) (outChannels : ℤ) (kernel : List ℤ) (w b : NPArray)
      (stride padding : Option (List ℤ)) (numGroups : Option ℤ)
  | sliceL (inp : Value) (starts sizes strides : List ℤ)
deriving DecidableEq

/-- The network under construction: its layers in construction order. -/
abbrev Network := List Layer

/-- `net.add_*` followed by `layer.get_output(0)`: append the layer and
return the fresh output handle (id = position in the network). -/
def addLayer (net : Network) (l : Layer) : Network × TRTTensor :=
  (net ++ [l], ⟨net.length, []⟩)

/-- Python attribute assignment on the just-created layer object: update
the most recently added layer. -/
def updateLast (net : Network) (f : Layer → Layer) : Network :=
  match net with
  | [] => []
  | [l] => [f l]
  | l :: ls => l :: updateLast ls f

def setPoolStride (s : List ℤ) : Layer → Layer
  | .pooling i p => .pooling i { p with stride := some s }
  | l => l

def setPoolPadding (s : List ℤ) : Layer → Layer
  | .pooling i p => .pooling i { p with padding := some s }
  | l => l

def setConvStride (s : List ℤ) : Layer → Layer
  | .convolution i o k w b _ pd dl g => .convolution i o k w b (some s) pd dl g
  | .deconvolution i o k w b _ pd g => .deconvolution i o k w b (some s) pd g
  | l => l

def setConvPadding (s : List ℤ) : Layer → Layer
  | .convolution i o k w b st _ dl g => .convolution i o k w b st (some s) dl g
  | .deconvolution i o k w b st _ g => .deconvolution i o k w b st (some s) g
  | l => l

def setConvDilation (s : List ℤ) : Layer → Layer
  | .convolution i o k w b st pd _ g => .convolution i o k w b st pd (some s) g
  | l => l

def setConvGroups (g : ℤ) : Layer → Layer
  | .convolution i o k w b st pd dl _ => .convolution i o k w b st pd dl (some g)
  | .deconvolution i o k w b st pd _ => .deconvolution i o k w b st pd (some g)
  | l => l

/-- Boundary 1 (torch functional ops used by fallback paths) and `np.sqrt`:
external library functions, taken as parameters of the embedding.
Argument orders follow the call sites in ops.py. -/
structure Lib where
  npSqrt : ℚ → ℚ
  conv2d : TorchTensor → TorchTensor → Option TorchTensor → List ℤ → List ℤ → List ℤ → ℤ →
    TorchTensor
  conv_transpose2d : TorchTensor → TorchTensor → Option TorchTensor → List ℤ → List ℤ →
    List ℤ → ℤ → List ℤ → TorchTensor
  batch_norm : TorchTensor → TorchTensor → TorchTensor → TorchTensor → TorchTensor → Bool →
    ℚ → ℚ → TorchTensor
  max_pool2d : TorchTensor → List ℤ → List ℤ → List ℤ → List ℤ → TorchTensor
  adaptive_avg_pool2d : TorchTensor → List ℤ → TorchTensor
  sliceIndex : TorchTensor → ℤ → ℤ → ℤ → ℤ → TorchTensor
  sumdim : TorchTensor → List ℤ → Bool → TorchTensor
  arith : ElementWiseOperation → Value → Value → Option Value

/-- `F.relu` / `F.relu_`: elementwise max with zero (the in-place variant
returns the same values). -/
def reluT (t : TorchTensor) : TorchTensor := ⟨t.shape, t.dtype, t.data.map (fun x => max x 0)⟩

/-- Scan for the (first-occurrence) maximum of a list, tracking the running
best value and its index; `i` is the index of the next element. -/
def maxScan (i : ℕ) (bv : ℚ) (bi : ℕ) : List ℚ → ℚ × ℕ
  | [] => (bv, bi)
  | y :: ys => if bv < y then maxScan (i + 1) y i ys else maxScan (i + 1) bv bi ys

/-- Maximum value of a list together with the index of its first
occurrence (`(0, 0)` on the empty list, which torch would reject). -/
def maxWithIndex : List ℚ → ℚ × ℕ
  | [] => (0, 0)
  | x :: xs => maxScan 1 x 0 xs

def getQ (xs : List ℚ) (i : ℕ) : ℚ := xs.getD i 0

/-- `t.max(d, keepdim)`: reduce axis `d` of a row-major tensor, returning
the max values and the (int64) argmax indices. -/
def maxdimT (t : TorchTensor) (d : ℕ) (keep : Bool) : TorchTensor × TorchTensor :=
  let outer := prodNat (t.shape.take d)
  let k := t.shape.getD d 1
  let inner := prodNat (t.shape.drop (d + 1))
  let pick := fun (oi : ℕ) =>
    let o := oi / inner
    let i := oi % inner
    maxWithIndex ((List.range k).map (fun j => getQ t.data ((o * k + j) * inner + i)))
  let vals := (List.range (outer * inner)).map (fun oi => (pick oi).1)
  let idxs := (List.range (outer * inner)).map (fun oi => ((pick oi).2 : ℚ))
  let outShape := if keep then t.shape.set d 1 else t.shape.take d ++ t.shape.drop (d + 1)
  (⟨outShape, t.dtype, vals⟩, ⟨outShape, .i64, idxs⟩)

/-- Result type of a node handler: the returned output list (`none` models
a raised exception) together with the active-network slot afterwards. -/
abbrev HandlerResult := Option (List Value) × Option Network

/-- ops.py `aten_relu` (registered for `aten::relu`): note the conversion
gate tests only that a network context is active. -/
def aten_relu (netOpt : Option Network) (inputs : List Value) : HandlerResult :=
  match netOpt with
  | some net =>
    match inputs with
    | inp :: _ =>
      let (net1, out) := addLayer net (.activation inp .RELU)
      (some [.trt out], some net1)
    | [] => (Option.none, some net)
  | Option.none =>
    match inputs with
    | .tensor t :: _ => (some [.tensor (reluT t)], Option.none)
    | _ => (Option.none, Option.none)

/-- ops.py `aten_relu_` (registered for `aten::relu_`): conversion requires
both an active network and a symbolic operand. -/
def aten_relu_ (netOpt : Option Network) (inputs : List Value) : HandlerResult :=
  match netOpt, has_trt_tensor inputs with
  | some net, true =>
    match inputs with
    | inp :: _ =>
      let (net1, out) := addLayer net (.activation inp .RELU)
      (some [.trt out], some net1)
    | [] => (Option.none, some net)
  | _, _ =>
    match inputs with
    | .tensor t :: _ => (some [.tensor (reluT t)], netOpt)
    | _ => (Option.none, netOpt)

/-- ops.py `aten_max_pool2d` (registered for `aten::max_pool2d`): the
pooling layer is added and its stride/padding assigned before the dilation
assertion runs. -/
def aten_max_pool2d (lib : Lib) (netOpt : Option Network) (inputs : List Value) :
    HandlerResult :=
  match inputs with
  | inp :: .ints ksize :: .ints stride :: .ints pad :: .ints dilation :: _ =>
    match netOpt, has_trt_tensor inputs with
    | some net, true =>
      let (net1, _out) := addLayer net (.pooling inp ⟨.MAX, ksize, Option.none, Option.none, Option.none⟩)
      let net2 := updateLast net1 (setPoolStride stride)
      let net3 := updateLast net2 (setPoolPadding pad)
      if dilation.all (fun b => b == 1) then
        (some [.trt ⟨net.length, []⟩], some net3)
      else
        (Option.none, some net3)
    | _, _ =>
      match inp with
      | .tensor t => (some [.tensor (lib.max_pool2d t ksize stride pad dilation)], netOpt)
      | _ => (Option.none, netOpt)
  | _ => (Option.none, netOpt)

/-- ops.py `aten_adaptive_avg_pool2d` (registered for
`aten::adaptive_avg_pool2d`): `ksize` is overwritten with the computed
kernel before the divisibility assertion runs, exactly as in the source. -/
def aten_adaptive_avg_pool2d (lib : Lib) (netOpt : Option Network) (inputs : List Value) :
    HandlerResult :=
  match inputs with
  | inp :: .ints ksize :: _ =>
    match netOpt, has_trt_tensor inputs with
    | some net, true =>
      match inp.shape? with
      | some shp =>
        let inp_shape := shp.drop 1
        let ksize2 := (inp_shape.zip ksize).map (fun p => Int.fdiv (p.1 : ℤ) p.2)
        if (inp_shape.zip ksize2).all (fun p => Int.fmod (p.1 : ℤ) p.2 == 0) then
          let (net1, out) := addLayer net (.pooling inp ⟨.AVERAGE, ksize2, Option.none, Option.none, Option.none⟩)
          (some [.trt out], some net1)
        else (Option.none, some net)
      | Option.none => (Option.none, some net)
    | _, _ =>
      match inp with
      | .tensor t => (some [.tensor (lib.adaptive_avg_pool2d t ksize)], netOpt)
      | _ => (Option.none, netOpt)
  | _ => (Option.none, netOpt)

/-- ops.py `aten_batch_norm` (registered for `aten::batch_norm`): conversion
folds the normalization into a per-channel scale layer. -/
def aten_batch_norm (lib : Lib) (netOpt : Option Network) (inputs : List Value) :
    HandlerResult :=
  match inputs with
  | inp :: weight :: bias :: running_mean :: running_var :: training :: momentum :: epsV :: _ =>
    match netOpt, has_trt_tensor inputs with
    | some net, true =>
      match weight, bias, running_mean, running_var, epsV with
      | .tensor w, .tensor b, .tensor m, .tensor v, .rat eps =>
        let mN := toNumpy m
        let vN := toNumpy v
        let wN := toNumpy w
        let bN := toNumpy b
        let sq := npMap lib.npSqrt (npMap (fun x => x + eps) vN)
        let shift := npZip (fun x y => x + y) (npZip (fun x y => x * y) (npZip (fun x y => x / y) (npNeg mN) sq) wN) bN
        let scale := npZip (fun x y => x / y) wN sq
        let (net1, out) := addLayer net (.scaleL inp .CHANNEL shift scale (onesLike shift))
        (some [.trt out], some net1)
      | _, _, _, _, _ => (Option.none, some net)
    | _, _ =>
      match inp, weight, bias, running_mean, running_var, training.toBool?, momentum, epsV with
      | .tensor ti, .tensor w, .tensor b, .tensor m, .tensor v, some tb, .rat mom, .rat eps =>
        (some [.tensor (lib.batch_norm ti m v w b tb mom eps)], netOpt)
      | _, _, _, _, _, _, _, _ => (Option.none, netOpt)
  | _ => (Option.none, netOpt)

/-- ops.py `aten_convolution` (registered for `aten::_convolution`):
weight and bias are copied to host buffers with `detach().cpu().numpy()`,
with no dtype conversion. -/
def aten_convolution (lib : Lib) (netOpt : Option Network) (inputs : List Value) :
    HandlerResult :=
  match inputs with
  | inp :: weight :: bias :: .ints stride :: .ints pad :: .ints dilation ::
      transposedV :: .ints output_padding :: .int groups :: _ =>
    match netOpt, has_trt_tensor inputs with
    | some net, true =>
      if output_padding.all (fun e => e == 0) then
        match weight, transposedV.toBool? with
        | .tensor wt, some transposed =>
          match wt.shape with
          | d0 :: d1 :: ksize =>
            let O : ℤ := if transposed then (d1 : ℤ) * groups else (d0 : ℤ)
            if ksize.length == 2 then
              match (match bias with
                     | .tensor b => some (toNumpy b)
                     | .pynone => some emptyWeights
                     | _ => Option.none) with
              | some bN =>
                if transposed then
                  let (net1, _out) := addLayer net
                    (.deconvolution inp O (ksize.map (fun n => (n : ℤ))) (toNumpy wt) bN
                      Option.none Option.none Option.none)
                  let net2 := updateLast net1 (setConvStride stride)
                  let net3 := updateLast net2 (setConvPadding pad)
                  let net4 := updateLast net3 (setConvGroups groups)
                  (some [.trt ⟨net.length, []⟩], some net4)
                else
                  let (net1, _out) := addLayer net
                    (.convolution inp O (ksize.map (fun n => (n : ℤ))) (toNumpy wt) bN
                      Option.none Option.none Option.none Option.none)
                  let net2 := updateLast net1 (setConvDilation dilation)
                  let net3 := updateLast net2 (setConvStride stride)
                  let net4 := updateLast net3 (setConvPadding pad)
                  let net5 := updateLast net4 (setConvGroups groups)
                  (some [.trt ⟨net.length, []⟩], some net5)
              | Option.none => (Option.none, some net)
            else (Option.none, some net)
          | _ => (Option.none, some net)
        | _, _ => (Option.none, some net)
      else (Option.none, some net)
    | _, _ =>
      if stride.length == 2 then
        match inp, weight, transposedV.toBool? with
        | .tensor ti, .tensor wt, some transposed =>
          match bias with
          | .tensor b =>
            if transposed then
              (some [.tensor (lib.conv_transpose2d ti wt (some b) stride pad output_padding groups dilation)], netOpt)
            else
              (some [.tensor (lib.conv2d ti wt (some b) stride pad dilation groups)], netOpt)
          | .pynone =>
            if transposed then
              (some [.tensor (lib.conv_transpose2d ti wt Option.none stride pad output_padding groups dilation)], netOpt)
            else
              (some [.tensor (lib.conv2d ti wt Option.none stride pad dilation groups)], netOpt)
          | _ => (Option.none, netOpt)
        | _, _, _ => (Option.none, netOpt)
      else (Option.none, netOpt)
  | _ => (Option.none, netOpt)

/-- Bounds-checked list assignment (`xs[i] = a` raises IndexError when out
of range). -/
def listSet? {α : Type} (xs : List α) (i : ℕ) (a : α) : Option (List α) :=
  if i < xs.length then some (xs.set i a) else Option.none

/-- ops.py `_trt_torch_slice`: per-axis start/size/stride arrays with the
sliced axis at position `dim - 1`; `none` models the IndexError / missing
shape failure. -/
def _trt_torch_slice (net : Network) (inp : Value) (dim start stop step : ℤ) :
    Option (Network × TRTTensor) :=
  match inp.shape? with
  | some shp =>
    let ndim := shp.length
    if 0 ≤ dim - 1 ∧ (dim - 1).toNat < ndim then
      let i := (dim - 1).toNat
      let starts := (List.replicate ndim (0 : ℤ)).set i start
      let out_shapes := (shp.map (fun n => (n : ℤ))).set i (min stop (shp.getD i 0 : ℤ) - start)
      let steps := (List.replicate ndim (1 : ℤ)).set i step
      some (addLayer net (.sliceL inp starts out_shapes steps))
    else Option.none
  | Option.none => Option.none

/-- ops.py `aten_slice` (registered for `aten::slice`): batch-axis slices
are either the full-range no-op or a failure. -/
def aten_slice (lib : Lib) (netOpt : Option Network) (inputs : List Value) : HandlerResult :=
  match inputs with
  | [inp, .int dim, .int start, .int stop, .int step] =>
    match netOpt, has_trt_tensor inputs with
    | some net, true =>
      if dim == 0 then
        if start == 0 && step == 1 && decide (100000000 < stop) then
          (some [inp], some net)
        else
          (Option.none, some net)
      else
        if step == 1 then
          match _trt_torch_slice net inp dim start stop step with
          | some (net1, out) => (some [.trt out], some net1)
          | Option.none => (Option.none, some net)
        else (Option.none, some net)
    | _, _ =>
      match inp with
      | .tensor t => (some [.tensor (lib.sliceIndex t dim start stop step)], netOpt)
      | _ => (Option.none, netOpt)
  | _ => (Option.none, netOpt)

/-- ops.py `try_convert_to_constant`: materialize real-tensor operands as
constant layers (downcasting float64 to float32, and reshaping 0-dim values
to the rank of the symbolic reference shape). -/
def try_convert_to_constant (net : Network) (inputs : List Value) :
    Option (List Value) × Network :=
  let ref_shape : Option (List ℕ) :=
    inputs.foldl (fun acc inp =>
      match inp with
      | .trt t => some t.shape
      | _ => acc) Option.none
  inputs.foldl
    (fun st inp =>
      match st with
      | (some acc, netc) =>
        match inp with
        | .tensor t =>
          let a := toNumpy t
          let a := if a.dtype == DType.f64 then castF32 a else a
          if a.shape.isEmpty then
            match ref_shape with
            | some rs =>
              let a2 : NPArray := ⟨List.replicate rs.length 1, a.dtype, a.data⟩
              let (net1, out) := addLayer netc (.constantL a2.shape a2)
              (some (acc ++ [Value.trt out]), net1)
            | Option.none => (Option.none, netc)
          else
            let (net1, out) := addLayer netc (.constantL a.shape a)
            (some (acc ++ [Value.trt out]), net1)
        | _ => (some (acc ++ [inp]), netc)
      | (Option.none, netc) => (Option.none, netc))
    (some [], net)

/-- The four operator keys of the shared elementwise dispatch helper. -/
inductive BinOpKey where
  | add
  | sub
  | mul
  | div
deriving DecidableEq

/-- The `trt_op` table of `_scale_or_elementwise`. -/
def BinOpKey.toTrt : BinOpKey → ElementWiseOperation
  | .add => .SUM
  | .sub => .SUB
  | .mul => .PROD
  | .div => .DIV

/-- ops.py `_scale_or_elementwise`: shared dispatch of the six elementwise
handlers.  Only a real-tensor *right* operand is tested for the
single-element scale-layer folding. -/
def _scale_or_elementwise (net : Network) (lfs rfs : Value) (op : BinOpKey) :
    Option Value × Network :=
  if lfs.isTensor && rfs.isTensor then
    (Option.none, net)
  else if lfs.isTrt && rfs.isTrt then
    let (net1, out) := addLayer net (.elementwise lfs rfs op.toTrt)
    (some (.trt out), net1)
  else
    match rfs with
    | .tensor rt =>
      let val := toNumpy rt
      if val.size == 1 then
        let shift : NPArray :=
          match op with
          | .add => castF32 val
          | .sub => castF32 (npNeg val)
          | .mul => scalar32 0
          | .div => scalar32 0
        let scaleW : NPArray :=
          match op with
          | .add => scalar32 1
          | .sub => scalar32 1
          | .mul => castF32 val
          | .div => castF32 (npRecip val)
        let (net1, out) := addLayer net (.scaleL lfs .UNIFORM shift scaleW (scalar32 1))
        (some (.trt out), net1)
      else
        match try_convert_to_constant net [lfs, rfs] with
        | (some [lfs2, rfs2], net1) =>
          let (net2, out) := addLayer net1 (.elementwise lfs2 rfs2 op.toTrt)
          (some (.trt out), net2)
        | (_, net1) => (Option.none, net1)
    | _ =>
      match try_convert_to_constant net [lfs, rfs] with
      | (some [lfs2, rfs2], net1) =>
        let (net2, out) := addLayer net1 (.elementwise lfs2 rfs2 op.toTrt)
        (some (.trt out), net2)
      | (_, net1) => (Option.none, net1)

/-- ops.py `aten_mul` (registered for `aten::mul`). -/
def aten_mul (lib : Lib) (netOpt : Option Network) (inputs : List Value) : HandlerResult :=
  match inputs with
  | [lfs, rfs] =>
    match netOpt, has_trt_tensor inputs with
    | some net, true =>
      match _scale_or_elementwise net lfs rfs .mul with
      | (some out, net1) => (some [out], some net1)
      | (Option.none, net1) => (Option.none, some net1)
    | _, _ =>
      match lib.arith .PROD lfs rfs with
      | some r => (some [r], netOpt)
      | Option.none => (Option.none, netOpt)
  | _ => (Option.none, netOpt)

/-- ops.py `aten_mul_` (registered for `aten::mul_`; the in-place fallback
returns the same values as the out-of-place one). -/
def aten_mul_ (lib : Lib) (netOpt : Option Network) (inputs : List Value) : HandlerResult :=
  match inputs with
  | [lfs, rfs] =>
    match netOpt, has_trt_tensor inputs with
    | some net, true =>
      match _scale_or_elementwise net lfs rfs .mul with
      | (some out, net1) => (some [out], some net1)
      | (Option.none, net1) => (Option.none, some net1)
    | _, _ =>
      match lib.arith .PROD lfs rfs with
      | some r => (some [r], netOpt)
      | Option.none => (Option.none, netOpt)
  | _ => (Option.none, netOpt)

/-- ops.py `aten_add` (registered for `aten::add`; `alpha` must equal 1). -/
def aten_add (lib : Lib) (netOpt : Option Network) (inputs : List Value) : HandlerResult :=
  match inputs with
  | [lfs, rfs, alpha] =>
    if alpha.isOne then
      match netOpt, has_trt_tensor inputs with
      | some net, true =>
        match _scale_or_elementwise net lfs rfs .add with
        | (some out, net1) => (some [out], some net1)
        | (Option.none, net1) => (Option.none, some net1)
      | _, _ =>
        match lib.arith .SUM lfs rfs with
        | some r => (some [r], netOpt)
        | Option.none => (Option.none, netOpt)
    else (Option.none, netOpt)
  | _ => (Option.none, netOpt)

/-- ops.py `aten_add_` (registered for `aten::add_`). -/
def aten_add_ (lib : Lib) (netOpt : Option Network) (inputs : List Value) : HandlerResult :=
  match inputs with
  | [lfs, rfs, alpha] =>
    if alpha.isOne then
      match netOpt, has_trt_tensor inputs with
      | some net, true =>
        match _scale_or_elementwise net lfs rfs .add with
        | (some out, net1) => (some [out], some net1)
        | (Option.none, net1) => (Option.none, some net1)
      | _, _ =>
        match lib.arith .SUM lfs rfs with
        | some r => (some [r], netOpt)
        | Option.none => (Option.none, netOpt)
    else (Option.none, netOpt)
  | _ => (Option.none, netOpt)

/-- ops.py `aten_sub` (registered for `aten::sub`; `alpha` must equal 1). -/
def aten_sub (lib : Lib) (netOpt : Option Network) (inputs : List Value) : HandlerResult :=
  match inputs with
  | [lfs, rfs, alpha] =>
    if alpha.isOne then
      match netOpt, has_trt_tensor inputs with
      | some net, true =>
        match _scale_or_elementwise net lfs rfs .sub with
        | (some out, net1) => (some [out], some net1)
        | (Option.none, net1) => (Option.none, some net1)
      | _, _ =>
        match lib.arith .SUB lfs rfs with
        | some r => (some [r], netOpt)
        | Option.none => (Option.none, netOpt)
    else (Option.none, netOpt)
  | _ => (Option.none, netOpt)

/-- ops.py `aten_div` (registered for `aten::div`). -/
def aten_div (lib : Lib) (netOpt : Option Network) (inputs : List Value) : HandlerResult :=
  match inputs with
  | [lfs, rfs] =>
    match netOpt, has_trt_tensor inputs with
    | some net, true =>
      match _scale_or_elementwise net lfs rfs .div with
      | (some out, net1) => (some [out], some net1)
      | (Option.none, net1) => (Option.none, some net1)
    | _, _ =>
      match lib.arith .DIV lfs rfs with
      | some r => (some [r], netOpt)
      | Option.none => (Option.none, netOpt)
  | _ => (Option.none, netOpt)

/-- ops.py `_axes_to_trt_axis`: uint32 bit-mask with bit `ax - 1` set per
reduced axis; each axis must be positive, and the `ndim` parameter is
never inspected.  `<<` and `|` are computed modulo 2^32 (np.uint32). -/
def _axes_to_trt_axis (axes : List ℤ) (ndim : ℕ) : Option ℕ :=
  axes.foldl
    (fun acc (ax : ℤ) =>
      match acc with
      | some r =>
        if 0 < ax then some ((r ||| (1 <<< (ax - 1).toNat)) % 2 ^ 32) else Option.none
      | Option.none => Option.none)
    (some 0)

/-- ops.py `aten_sum` (registered for `aten::sum`). -/
def aten_sum (lib : Lib) (netOpt : Option Network) (inputs : List Value) : HandlerResult :=
  match inputs with
  | [inp, .ints axes, keepdimV] =>
    match netOpt, has_trt_tensor inputs with
    | some net, true =>
      match inp.shape?, keepdimV.toBool? with
      | some shp, some kb =>
        match _axes_to_trt_axis axes shp.length with
        | some mask =>
          let (net1, out) := addLayer net (.reduce inp .SUM mask kb)
          (some [.trt out], some net1)
        | Option.none => (Option.none, some net)
      | _, _ => (Option.none, some net)
    | _, _ =>
      match inp, keepdimV.toBool? with
      | .tensor t, some kb => (some [.tensor (lib.sumdim t axes kb)], netOpt)
      | _, _ => (Option.none, netOpt)
  | _ => (Option.none, netOpt)

/-- ops.py `aten_max` (registered for `aten::max`): conversion returns the
reduce-layer output plus the explicit `None` placeholder; fallback returns
the values and the index tensor of `t.max(dim, keepdim)`. -/
def aten_max (netOpt : Option Network) (inputs : List Value) : HandlerResult :=
  match inputs with
  | [inp, .int dim, keepdimV] =>
    match netOpt, has_trt_tensor inputs with
    | some net, true =>
      match inp.shape?, keepdimV.toBool? with
      | some shp, some kb =>
        match _axes_to_trt_axis [dim] shp.length with
        | some mask =>
          let (net1, out) := addLayer net (.reduce inp .MAX mask kb)
          (some [.trt out, .pynone], some net1)
        | Option.none => (Option.none, some net)
      | _, _ => (Option.none, some net)
    | _, _ =>
      match inp, keepdimV.toBool? with
      | .tensor t, some kb =>
        let r : ℤ := t.shape.length
        let d := if dim < 0 then dim + r else dim
        if 0 ≤ d ∧ d < r then
          let p := maxdimT t d.toNat kb
          (some [.tensor p.1, .tensor p.2], netOpt)
        else (Option.none, netOpt)
      | _, _ => (Option.none, netOpt)
  | _ => (Option.none, netOpt)

/-- A trivial instantiation of the external boundary, used to evaluate the
embedding at concrete inputs. -/
def trivLib : Lib where
  npSqrt := fun q => q
  conv2d := fun _ _ _ _ _ _ _ => ⟨[], .f32, []⟩
  conv_transpose2d := fun _ _ _ _ _ _ _ _ => ⟨[], .f32, []⟩
  batch_norm := fun _ _ _ _ _ _ _ _ => ⟨[], .f32, []⟩
  max_pool2d := fun _ _ _ _ _ => ⟨[], .f32, []⟩
  adaptive_avg_pool2d := fun _ _ => ⟨[], .f32, []⟩
  sliceIndex := fun _ _ _ _ _ => ⟨[], .f32, []⟩
  sumdim := fun _ _ _ => ⟨[], .f32, []⟩
  arith := fun _ _ _ => Option.none

/-! ### Shared lemmas -/

theorem updateLast_append (net : Network) (l : Layer) (f : Layer → Layer) :
    updateLast (net ++ [l]) f = net ++ [f l] := by
  induction net with
  | nil => rfl
  | cons a as ih =>
    cases as with
    | nil => rfl
    | cons b bs =>
      show a :: updateLast ((b :: bs) ++ [l]) f = a :: ((b :: bs) ++ [f l])
      rw [ih]

theorem getD_zipWith (f : ℚ → ℚ → ℚ) (as bs : List ℚ) (c : ℕ)
    (ha : c < as.length) (hb : c < bs.length) :
    (List.zipWith f as bs).getD c 0 = f (as.getD c 0) (bs.getD c 0) := by
  induction as generalizing bs c with
  | nil => simp at ha
  | cons a as ih =>
    cases bs with
    | nil => simp at hb
    | cons b bs =>
      cases c with
      | zero => rfl
      | succ c =>
        simp only [List.zipWith_cons_cons, List.getD_cons_succ]
        exact ih bs c (by simpa using ha) (by simpa using hb)

theorem getD_map (f : ℚ → ℚ) (as : List ℚ) (c : ℕ) (ha : c < as.length) :
    (as.map f).getD c 0 = f (as.getD c 0) := by
  induction as generalizing c with
  | nil => simp at ha
  | cons a as ih =>
    cases c with
    | zero => rfl
    | succ c =>
      simp only [List.map_cons, List.getD_cons_succ]
      exact ih c (by simpa using ha)

theorem axes_to_trt_axis_single (ax : ℤ) (n : ℕ) (h1 : 0 < ax) (h2 : ax ≤ 32) :
    _axes_to_trt_axis [ax] n = some (2 ^ (ax - 1).toNat) := by
  have hk : (ax - 1).toNat < 32 := by omega
  have hpow : 2 ^ (ax - 1).toNat < 2 ^ 32 :=
    Nat.pow_lt_pow_right (by norm_num) hk
  simp only [_axes_to_trt_axis, List.foldl_cons, List.foldl_nil, if_pos h1]
  rw [Nat.zero_or, Nat.shiftLeft_eq, one_mul, Nat.mod_eq_of_lt hpow]

/-! ### Claim theorems -/

/-- C1: the spec requires `aten::adaptive_avg_pool2d` in conversion mode to
fail for a spatially non-divisible target size, but the handler overwrites
`ksize` with the computed kernel before asserting divisibility, so it checks
`input % (input // target) == 0` instead of `input % target == 0`.
Consequence, evaluated here: spatial input `[8, 8]` with target `[4, 4]`
yields kernel `[2, 2]` as claimed, but target `[3, 3]` does NOT fail — it
is accepted and also builds an average-pooling layer with kernel `[2, 2]`. -/
theorem adaptive_pool_accepts_nondivisible_target :
    aten_adaptive_avg_pool2d trivLib (some []) [.trt ⟨7, [1, 8, 8]⟩, .ints [4, 4]] =
      (some [.trt ⟨0, []⟩],
       some [.pooling (.trt ⟨7, [1, 8, 8]⟩) ⟨.AVERAGE, [2, 2], Option.none, Option.none, Option.none⟩])
    ∧ aten_adaptive_avg_pool2d trivLib (some []) [.trt ⟨7, [1, 8, 8]⟩, .ints [3, 3]] =
      (some [.trt ⟨0, []⟩],
       some [.pooling (.trt ⟨7, [1, 8, 8]⟩) ⟨.AVERAGE, [2, 2], Option.none, Option.none, Option.none⟩]) := by
  constructor <;> rfl

/-- C2 counterexample: with a single-element real tensor as the LEFT
operand and a symbolic right operand, `aten::add` does not build a scale
layer; it materializes the tensor as a constant layer and builds an
elementwise SUM layer, refuting the claim's "whenever exactly one operand
is a real tensor ... builds a per-tensor uniform scale layer". -/
theorem elementwise_left_scalar_tensor_not_scale_folded :
    aten_add trivLib (some []) [.tensor ⟨[1], .f32, [2]⟩, .trt ⟨7, [3]⟩, .int 1] =
      (some [.trt ⟨1, []⟩],
       some [.constantL [1] ⟨[1], .f32, [2]⟩,
             .elementwise (.trt ⟨0, []⟩) (.trt ⟨7, [3]⟩) .SUM]) := by
  rfl

/-- C2 (amended): in the shared elementwise dispatch, whenever the RIGHT
operand is a single-element real tensor (and the left operand is not a real
tensor), a uniform scale layer is built — not an elementwise layer — with
shift = value, scale = 1 for add; shift = −value, scale = 1 for sub;
shift = 0, scale = value for mul; shift = 0, scale = 1/value for div; and
power = 1 in all four cases. -/
theorem elementwise_right_scalar_tensor_scale_folded (net : Network) (lfs : Value)
    (t : TorchTensor) (v : ℚ) (op : BinOpKey)
    (hl : lfs.isTensor = false) (hsz : prodNat t.shape = 1) (hd : t.data = [v]) :
    ∃ sh sc : NPArray,
      _scale_or_elementwise net lfs (.tensor t) op =
        (some (.trt ⟨net.length, []⟩), net ++ [.scaleL lfs .UNIFORM sh sc (scalar32 1)])
      ∧ sh.data = (match op with | .add => [v] | .sub => [-v] | .mul => [0] | .div => [0])
      ∧ sc.data = (match op with | .add => [1] | .sub => [1] | .mul => [v] | .div => [1 / v]) := by
  have hsize : (toNumpy t).size == 1 := by
    simp [toNumpy, NPArray.size, hsz]
  have hnotboth : (lfs.isTensor && (Value.tensor t).isTensor) = false := by
    simp [hl]
  have hnottrt : (lfs.isTrt && (Value.tensor t).isTrt) = false := by
    simp [Value.isTrt]
  cases op with
  | add =>
    refine ⟨⟨t.shape, .f32, [v]⟩, ⟨[], .f32, [1]⟩, ?_, rfl, rfl⟩
    simp [_scale_or_elementwise, hnotboth, hnottrt, addLayer, castF32, toNumpy, hd,
      NPArray.size, hsz, scalar32]
  | sub =>
    refine ⟨⟨t.shape, .f32, [-v]⟩, ⟨[], .f32, [1]⟩, ?_, rfl, rfl⟩
    simp [_scale_or_elementwise, hnotboth, hnottrt, addLayer, castF32, npNeg, toNumpy, hd,
      NPArray.size, hsz, scalar32]
  | mul =>
    refine ⟨⟨[], .f32, [0]⟩, ⟨t.shape, .f32, [v]⟩, ?_, rfl, rfl⟩
    simp [_scale_or_elementwise, hnotboth, hnottrt, addLayer, castF32, toNumpy, hd,
      NPArray.size, hsz, scalar32]
  | div =>
    refine ⟨⟨[], .f32, [0]⟩, ⟨t.shape, .f32, [1 / v]⟩, ?_, rfl, rfl⟩
    simp [_scale_or_elementwise, hnotboth, hnottrt, addLayer, castF32, npRecip, toNumpy, hd,
      NPArray.size, hsz, scalar32]

/-- C2 witness: the amended theorem evaluated for `sub` at value 2. -/
theorem elementwise_right_scalar_tensor_scale_folded_witness :
    ∃ sh sc : NPArray,
      _scale_or_elementwise [] (.trt ⟨5, [3]⟩) (.tensor ⟨[1], .f32, [2]⟩) .sub =
        (some (.trt ⟨0, []⟩), [.scaleL (.trt ⟨5, [3]⟩) .UNIFORM sh sc (scalar32 1)])
      ∧ sh.data = [-2] ∧ sc.data = [1] :=
  elementwise_right_scalar_tensor_scale_folded [] (.trt ⟨5, [3]⟩) ⟨[1], .f32, [2]⟩ 2 .sub
    (by rfl) (by rfl) (by rfl)

/-- C3 counterexample: `aten::_convolution` in conversion mode copies a
float64 weight to the host buffer unchanged — the baked weight buffer has
dtype float64, not float32, refuting "the resulting host buffer is a
float32 buffer, with float64 values downcast to float32". -/
theorem conv_float64_weight_kept_float64 :
    aten_convolution trivLib (some [])
        [.trt ⟨0, [1, 4, 4]⟩, .tensor ⟨[1, 1, 2, 2], .f64, [1, 1, 1, 1]⟩, .pynone,
         .ints [1, 1], .ints [0, 0], .ints [1, 1], .bool false, .ints [0, 0], .int 1] =
      (some [.trt ⟨0, []⟩],
       some [.convolution (.trt ⟨0, [1, 4, 4]⟩) 1 [2, 2]
               ⟨[1, 1, 2, 2], .f64, [1, 1, 1, 1]⟩ emptyWeights
               (some [1, 1]) (some [0, 0]) (some [1, 1]) (some 1)])
    ∧ (⟨[1, 1, 2, 2], .f64, [1, 1, 1, 1]⟩ : NPArray).dtype ≠ DType.f32 := by
  exact ⟨rfl, by decide⟩

/-- C3 (amended): only `try_convert_to_constant` downcasts float64 host
buffers to float32 — a constant payload it bakes has dtype float32 when the
source tensor is float64 (and the source dtype otherwise) — whereas
`aten::_convolution` copies the weight buffer preserving the source
tensor's dtype, so a float64 convolution weight is not downcast. -/
theorem constant_downcast_and_conv_dtype_preserved :
    (∀ (net : Network) (r : TRTTensor) (t : TorchTensor), t.shape ≠ [] →
      try_convert_to_constant net [.tensor t, .trt r] =
        (some [.trt ⟨net.length, []⟩, .trt r],
         net ++ [.constantL t.shape
                   ⟨t.shape, if t.dtype = .f64 then .f32 else t.dtype, t.data⟩]))
    ∧ (∀ (lib : Lib) (net : Network) (inp : Value) (wt : TorchTensor)
         (d0 d1 kh kw : ℕ) (stride pad dilation : List ℤ) (groups : ℤ),
        wt.shape = [d0, d1, kh, kw] →
        has_trt_tensor [inp, .tensor wt, .pynone, .ints stride, .ints pad, .ints dilation,
                        .bool false, .ints [0, 0], .int groups] = true →
        aten_convolution lib (some net)
            [inp, .tensor wt, .pynone, .ints stride, .ints pad, .ints dilation,
             .bool false, .ints [0, 0], .int groups] =
          (some [.trt ⟨net.length, []⟩],
           some (net ++ [.convolution inp (d0 : ℤ) [(kh : ℤ), (kw : ℤ)]
                   ⟨wt.shape, wt.dtype, wt.data⟩ emptyWeights
                   (some stride) (some pad) (some dilation) (some groups)]))) := by
  constructor
  · intro net r t hsh
    have hne : t.shape.isEmpty = false := by
      cases h : t.shape with
      | nil => exact absurd h hsh
      | cons a l => rfl
    cases hdt : t.dtype <;>
      simp [try_convert_to_constant, toNumpy, castF32, hne, addLayer, hdt, hsh]
  · intro lib net inp wt d0 d1 kh kw stride pad dilation groups hsh hTrt
    simp only [aten_convolution, hTrt, hsh]
    simp [addLayer, updateLast_append, setConvDilation, setConvStride, setConvPadding,
      setConvGroups, Value.toBool?, toNumpy, hsh]

/-- C3 witness: both conjuncts of the amended theorem evaluated at concrete
inputs (a float64 1-element constant, and a float32 2x2 weight). -/
theorem constant_downcast_and_conv_dtype_preserved_witness :
    try_convert_to_constant [] [.tensor ⟨[1], .f64, [3]⟩, .trt ⟨9, [2]⟩] =
      (some [.trt ⟨0, []⟩, .trt ⟨9, [2]⟩],
       [.constantL [1] ⟨[1], if DType.f64 = DType.f64 then DType.f32 else DType.f64, [3]⟩])
    ∧ aten_convolution trivLib (some [])
        [.trt ⟨4, [1, 4, 4]⟩, .tensor ⟨[2, 1, 2, 2], .f32, [1, 1, 1, 1, 1, 1, 1, 1]⟩, .pynone,
         .ints [1, 1], .ints [0, 0], .ints [1, 1], .bool false, .ints [0, 0], .int 1] =
      (some [.trt ⟨0, []⟩],
       some [.convolution (.trt ⟨4, [1, 4, 4]⟩) (2 : ℕ) [(2 : ℕ), (2 : ℕ)]
               ⟨[2, 1, 2, 2], .f32, [1, 1, 1, 1, 1, 1, 1, 1]⟩ emptyWeights
               (some [1, 1]) (some [0, 0]) (some [1, 1]) (some 1)]) :=
  ⟨constant_downcast_and_conv_dtype_preserved.1 [] ⟨9, [2]⟩ ⟨[1], .f64, [3]⟩ (by decide),
   constant_downcast_and_conv_dtype_preserved.2 trivLib [] (.trt ⟨4, [1, 4, 4]⟩)
     ⟨[2, 1, 2, 2], .f32, [1, 1, 1, 1, 1, 1, 1, 1]⟩ 2 1 2 2 [1, 1] [0, 0] [1, 1] 1
     (by rfl) (by rfl)⟩

/-- C4: `aten::slice` in conversion mode on axis 0 returns its input
unchanged, with no layer constructed, exactly when start = 0, step = 1 and
end exceeds 100000000; every other start/end/step combination on axis 0
fails (with the network also unchanged). -/
theorem slice_batch_axis_identity_or_fail (lib : Lib) (net : Network) (l : TRTTensor)
    (start stop step : ℤ) :
    (start = 0 ∧ step = 1 ∧ 100000000 < stop →
      aten_slice lib (some net) [.trt l, .int 0, .int start, .int stop, .int step] =
        (some [.trt l], some net))
    ∧ (¬(start = 0 ∧ step = 1 ∧ 100000000 < stop) →
      aten_slice lib (some net) [.trt l, .int 0, .int start, .int stop, .int step] =
        (Option.none, some net)) := by
  constructor
  · rintro ⟨h1, h2, h3⟩
    subst h1; subst h2
    simp [aten_slice, has_trt_tensor, Value.isTrt, h3]
  · intro h
    have hcond : (start == 0 && step == 1 && decide (100000000 < stop)) = false := by
      rcases Bool.eq_false_or_eq_true (start == 0 && step == 1 && decide (100000000 < stop)) with hb | hb
      · exfalso
        apply h
        simp only [Bool.and_eq_true, beq_iff_eq, decide_eq_true_eq] at hb
        exact ⟨hb.1.1, hb.1.2, hb.2⟩
      · exact hb
    simp [aten_slice, has_trt_tensor, Value.isTrt, hcond]

/-- C4 witness: the identity branch at `start=0, end=2^31, step=1` and the
failure branch at `start=1`. -/
theorem slice_batch_axis_identity_or_fail_witness :
    aten_slice trivLib (some []) [.trt ⟨3, [4]⟩, .int 0, .int 0, .int (2 ^ 31), .int 1] =
      (some [.trt ⟨3, [4]⟩], some [])
    ∧ aten_slice trivLib (some []) [.trt ⟨3, [4]⟩, .int 0, .int 1, .int (2 ^ 31), .int 1] =
      (Option.none, some []) :=
  ⟨(slice_batch_axis_identity_or_fail trivLib [] ⟨3, [4]⟩ 0 (2 ^ 31) 1).1
     ⟨rfl, rfl, by norm_num⟩,
   (slice_batch_axis_identity_or_fail trivLib [] ⟨3, [4]⟩ 1 (2 ^ 31) 1).2 (by simp)⟩

/-- C5: `aten::relu` enters conversion mode (builds a RELU activation layer
and returns its symbolic output) whenever a network context is active —
with no symbolic-operand requirement — while `aten::relu_` converts only
when additionally some operand is symbolic, and otherwise (like `aten::relu`
with no context) performs the real ReLU. -/
theorem relu_gate_asymmetry (net : Network) (inp : Value) (rest : List Value)
    (t : TorchTensor) :
    aten_relu (some net) (inp :: rest) =
      (some [.trt ⟨net.length, []⟩], some (net ++ [.activation inp .RELU]))
    ∧ (has_trt_tensor (.tensor t :: rest) = false →
      aten_relu_ (some net) (.tensor t :: rest) = (some [.tensor (reluT t)], some net))
    ∧ (has_trt_tensor (inp :: rest) = true →
      aten_relu_ (some net) (inp :: rest) =
        (some [.trt ⟨net.length, []⟩], some (net ++ [.activation inp .RELU])))
    ∧ aten_relu Option.none (.tensor t :: rest) = (some [.tensor (reluT t)], Option.none) := by
  refine ⟨rfl, ?_, ?_, rfl⟩
  · intro h
    simp [aten_relu_, h]
  · intro h
    simp [aten_relu_, h, addLayer]

/-- C5 witness: concrete instances of all four conjuncts (an active context
with a real-tensor-only operand list, and with a symbolic operand). -/
theorem relu_gate_asymmetry_witness :
    aten_relu (some []) [.tensor ⟨[2], .f32, [-1, 3]⟩] =
      (some [.trt ⟨0, []⟩], some [.activation (.tensor ⟨[2], .f32, [-1, 3]⟩) .RELU])
    ∧ aten_relu_ (some []) [.tensor ⟨[2], .f32, [-1, 3]⟩] =
      (some [.tensor (reluT ⟨[2], .f32, [-1, 3]⟩)], some [])
    ∧ aten_relu_ (some []) [.trt ⟨6, [2]⟩] =
      (some [.trt ⟨0, []⟩], some [.activation (.trt ⟨6, [2]⟩) .RELU])
    ∧ aten_relu Option.none [.tensor ⟨[2], .f32, [-1, 3]⟩] =
      (some [.tensor (reluT ⟨[2], .f32, [-1, 3]⟩)], Option.none) := by
  have h := relu_gate_asymmetry [] (.tensor ⟨[2], .f32, [-1, 3]⟩) [] ⟨[2], .f32, [-1, 3]⟩
  have h2 := relu_gate_asymmetry [] (.trt ⟨6, [2]⟩) [] ⟨[2], .f32, [-1, 3]⟩
  exact ⟨h.1, h.2.1 (by rfl), h2.2.2.1 (by rfl), h.2.2.2⟩

/-- C6: `aten::batch_norm` in conversion mode builds a per-channel scale
layer with, for every channel c, scale[c] = weight[c] / sqrt(var[c] + eps),
shift[c] = -mean[c] * scale[c] + bias[c] and power[c] = 1. -/
theorem batch_norm_scale_shift_formula (lib : Lib) (net : Network)
    (inp tr mom : Value) (w b m v : TorchTensor) (eps : ℚ) (n : ℕ)
    (hw : w.data.length = n) (hb : b.data.length = n)
    (hm : m.data.length = n) (hv : v.data.length = n)
    (hTrt : has_trt_tensor
      [inp, .tensor w, .tensor b, .tensor m, .tensor v, tr, mom, .rat eps] = true) :
    ∃ shiftA scaleA powerA : NPArray,
      aten_batch_norm lib (some net)
          [inp, .tensor w, .tensor b, .tensor m, .tensor v, tr, mom, .rat eps] =
        (some [.trt ⟨net.length, []⟩],
         some (net ++ [.scaleL inp .CHANNEL shiftA scaleA powerA]))
      ∧ ∀ c, c < n →
          scaleA.data.getD c 0 = w.data.getD c 0 / lib.npSqrt (v.data.getD c 0 + eps)
          ∧ shiftA.data.getD c 0 =
              -(m.data.getD c 0) * (w.data.getD c 0 / lib.npSqrt (v.data.getD c 0 + eps))
                + b.data.getD c 0
          ∧ powerA.data.getD c 0 = 1 := by
  refine
    ⟨npZip (fun x y => x + y)
        (npZip (fun x y => x * y)
          (npZip (fun x y => x / y) (npNeg (toNumpy m))
            (npMap lib.npSqrt (npMap (fun x => x + eps) (toNumpy v)))) (toNumpy w))
        (toNumpy b),
      npZip (fun x y => x / y) (toNumpy w)
        (npMap lib.npSqrt (npMap (fun x => x + eps) (toNumpy v))),
      onesLike
        (npZip (fun x y => x + y)
          (npZip (fun x y => x * y)
            (npZip (fun x y => x / y) (npNeg (toNumpy m))
              (npMap lib.npSqrt (npMap (fun x => x + eps) (toNumpy v)))) (toNumpy w))
          (toNumpy b)),
      ?_, ?_⟩
  · simp only [aten_batch_norm, hTrt]
    rfl
  · intro c hc
    have hsq : ((v.data.map (fun x => x + eps)).map lib.npSqrt).length = n := by
      simp [hv]
    have hsqc : c < ((v.data.map (fun x => x + eps)).map lib.npSqrt).length := by
      rw [hsq]; exact hc
    have hmn : c < (m.data.map Neg.neg).length := by simp [hm, hc]
    have hdivlen : c < (List.zipWith (fun x y => x / y) (m.data.map Neg.neg)
        ((v.data.map (fun x => x + eps)).map lib.npSqrt)).length := by
      rw [List.length_zipWith]
      exact lt_min hmn hsqc
    have hmullen : c < (List.zipWith (fun x y => x * y)
        (List.zipWith (fun x y => x / y) (m.data.map Neg.neg)
          ((v.data.map (fun x => x + eps)).map lib.npSqrt)) w.data).length := by
      rw [List.length_zipWith]
      exact lt_min hdivlen (by rw [hw]; exact hc)
    refine ⟨?_, ?_, ?_⟩
    · show (List.zipWith (fun x y => x / y) w.data
        ((v.data.map (fun x => x + eps)).map lib.npSqrt)).getD c 0 = _
      rw [getD_zipWith _ _ _ _ (by rw [hw]; exact hc) hsqc,
        getD_map, getD_map _ _ _ (by rw [hv]; exact hc)]
      simpa [hv] using hc
    · show (List.zipWith (fun x y => x + y) (List.zipWith (fun x y => x * y)
        (List.zipWith (fun x y => x / y) (m.data.map Neg.neg)
          ((v.data.map (fun x => x + eps)).map lib.npSqrt)) w.data) b.data).getD c 0 = _
      rw [getD_zipWith _ _ _ _ hmullen (by rw [hb]; exact hc),
        getD_zipWith _ _ _ _ hdivlen (by rw [hw]; exact hc),
        getD_zipWith _ _ _ _ hmn hsqc,
        getD_map _ _ _ (by rw [hm]; exact hc),
        getD_map, getD_map _ _ _ (by rw [hv]; exact hc)]
      · ring
      · simpa [hv] using hc
    · show ((List.zipWith (fun x y => x + y) (List.zipWith (fun x y => x * y)
        (List.zipWith (fun x y => x / y) (m.data.map Neg.neg)
          ((v.data.map (fun x => x + eps)).map lib.npSqrt)) w.data) b.data).map
            (fun _ => (1 : ℚ))).getD c 0 = 1
      rw [getD_map _ _ _ (by
        rw [List.length_zipWith]
        exact lt_min hmullen (by rw [hb]; exact hc))]

/-- C6 witness: the theorem at the spec's concrete example, channel data
mean=[2], var=[3], weight=[3/2], bias=[1/2], eps=1/100000, with a concrete
sqrt function. -/
theorem batch_norm_scale_shift_formula_witness :
    ∃ shiftA scaleA powerA : NPArray,
      aten_batch_norm trivLib (some [])
          [.trt ⟨0, [1]⟩, .tensor ⟨[1], .f32, [3 / 2]⟩, .tensor ⟨[1], .f32, [1 / 2]⟩,
           .tensor ⟨[1], .f32, [2]⟩, .tensor ⟨[1], .f32, [3]⟩, .bool false, .rat (1 / 10),
           .rat (1 / 100000)] =
        (some [.trt ⟨0, []⟩], some [.scaleL (.trt ⟨0, [1]⟩) .CHANNEL shiftA scaleA powerA])
      ∧ ∀ c, c < 1 →
          scaleA.data.getD c 0 =
              (⟨[1], .f32, [3 / 2]⟩ : TorchTensor).data.getD c 0 /
                trivLib.npSqrt ((⟨[1], .f32, [3]⟩ : TorchTensor).data.getD c 0 + 1 / 100000)
          ∧ shiftA.data.getD c 0 =
              -((⟨[1], .f32, [2]⟩ : TorchTensor).data.getD c 0) *
                  ((⟨[1], .f32, [3 / 2]⟩ : TorchTensor).data.getD c 0 /
                    trivLib.npSqrt ((⟨[1], .f32, [3]⟩ : TorchTensor).data.getD c 0 + 1 / 100000))
                + (⟨[1], .f32, [1 / 2]⟩ : TorchTensor).data.getD c 0
          ∧ powerA.data.getD c 0 = 1 :=
  batch_norm_scale_shift_formula trivLib [] (.trt ⟨0, [1]⟩) (.bool false) (.rat (1 / 10))
    ⟨[1], .f32, [3 / 2]⟩ ⟨[1], .f32, [1 / 2]⟩ ⟨[1], .f32, [2]⟩ ⟨[1], .f32, [3]⟩
    (1 / 100000) 1 rfl rfl rfl rfl (by rfl)

/-- C7: `aten::max` in conversion mode returns a two-element output whose
first element is the symbolic output of a MAX reduce layer over the one
axis (mask bit `dim - 1`, given keep-dims flag) and whose second element is
the explicit absent placeholder; in fallback mode it returns both the
reduced values and the real index tensor of `t.max(dim, keepdim)`. -/
theorem max_conversion_placeholder_fallback_indices (net : Network) (l : TRTTensor)
    (dim : ℤ) (kd : Bool) (t : TorchTensor) (d2 : ℤ) (kb2 : Bool)
    (h1 : 0 < dim) (h2 : dim ≤ 32) (h3 : 0 ≤ d2) (h4 : d2 < (t.shape.length : ℤ)) :
    aten_max (some net) [.trt l, .int dim, .bool kd] =
      (some [.trt ⟨net.length, []⟩, .pynone],
       some (net ++ [.reduce (.trt l) .MAX (2 ^ (dim - 1).toNat) kd]))
    ∧ aten_max Option.none [.tensor t, .int d2, .bool kb2] =
      (some [.tensor (maxdimT t d2.toNat kb2).1, .tensor (maxdimT t d2.toNat kb2).2],
       Option.none) := by
  constructor
  · simp [aten_max, has_trt_tensor, Value.isTrt, Value.shape?, Value.toBool?,
      axes_to_trt_axis_single dim l.shape.length h1 h2, addLayer]
  · have hneg : ¬dim < 0 := by omega
    have hd2 : ¬d2 < 0 := by omega
    simp only [aten_max, Value.toBool?]
    rw [if_neg hd2]
    simp [h3, h4]

/-- C7 witness: conversion at axis 2 of a rank-2 symbolic tensor and
fallback max over axis 0 of a concrete tensor. -/
theorem max_conversion_placeholder_fallback_indices_witness :
    aten_max (some []) [.trt ⟨4, [2, 3]⟩, .int 2, .bool true] =
      (some [.trt ⟨0, []⟩, .pynone],
       some [.reduce (.trt ⟨4, [2, 3]⟩) .MAX (2 ^ ((2 : ℤ) - 1).toNat) true])
    ∧ aten_max Option.none [.tensor ⟨[2], .f32, [1, 5]⟩, .int 0, .bool false] =
      (some [.tensor (maxdimT ⟨[2], .f32, [1, 5]⟩ ((0 : ℤ)).toNat false).1,
             .tensor (maxdimT ⟨[2], .f32, [1, 5]⟩ ((0 : ℤ)).toNat false).2],
       Option.none) :=
  max_conversion_placeholder_fallback_indices [] ⟨4, [2, 3]⟩ 2 true
    ⟨[2], .f32, [1, 5]⟩ 0 false (by decide) (by decide) (by decide) (by decide)

/-- C8: `aten::div` in conversion mode with a symbolic left operand and a
single-element real-tensor right operand builds a uniform scale layer whose
scale is the reciprocal `1 / value` with no nonzero check: the result is a
successful layer construction for every value, including 0 (on ℚ the
unguarded `1 / 0` evaluates to 0, standing in for numpy's non-raising
`inf`; no division error is raised either way). -/
theorem div_single_element_reciprocal_unguarded (lib : Lib) (net : Network)
    (l : TRTTensor) (t : TorchTensor) (v : ℚ)
    (hsz : prodNat t.shape = 1) (hd : t.data = [v]) :
    aten_div lib (some net) [.trt l, .tensor t] =
      (some [.trt ⟨net.length, []⟩],
       some (net ++ [.scaleL (.trt l) .UNIFORM (scalar32 0)
                       ⟨t.shape, .f32, [1 / v]⟩ (scalar32 1)])) := by
  simp [aten_div, has_trt_tensor, Value.isTrt, _scale_or_elementwise, Value.isTensor,
    NPArray.size, toNumpy, hsz, addLayer, castF32, npRecip, hd, scalar32]

/-- C8 witness: the theorem at the zero divisor — the handler succeeds and
bakes scale `1 / 0`. -/
theorem div_single_element_reciprocal_unguarded_witness :
    aten_div trivLib (some []) [.trt ⟨0, [2]⟩, .tensor ⟨[1], .f32, [0]⟩] =
      (some [.trt ⟨0, []⟩],
       some [.scaleL (.trt ⟨0, [2]⟩) .UNIFORM (scalar32 0)
               ⟨[1], .f32, [1 / 0]⟩ (scalar32 1)]) :=
  div_single_element_reciprocal_unguarded trivLib [] ⟨0, [2]⟩ ⟨[1], .f32, [0]⟩ 0
    (by rfl) (by rfl)

/-- C9: `aten::max_pool2d` in conversion mode adds the max-pooling layer
and assigns its stride and padding before the dilation assertion runs, so
for every dilation list containing a value other than 1 the handler fails
with the pooling layer already added to the network: the failure is not
atomic with respect to the engine-graph state. -/
theorem max_pool2d_dilation_failure_after_layer_added (lib : Lib) (net : Network)
    (inp : Value) (ksize stride pad dil : List ℤ) (d : ℤ)
    (hTrt : has_trt_tensor [inp, .ints ksize, .ints stride, .ints pad, .ints dil] = true)
    (hmem : d ∈ dil) (hne : d ≠ 1) :
    aten_max_pool2d lib (some net) [inp, .ints ksize, .ints stride, .ints pad, .ints dil] =
      (Option.none,
       some (net ++ [.pooling inp ⟨.MAX, ksize, some stride, some pad, Option.none⟩])) := by
  have hall : (dil.all fun b => b == 1) = false := by
    rcases Bool.eq_false_or_eq_true (dil.all fun b => b == 1) with hb | hb
    · rw [List.all_eq_true] at hb
      exact absurd (by simpa using hb d hmem) hne
    · exact hb
  simp [aten_max_pool2d, hTrt, hall, addLayer, updateLast_append, setPoolStride,
    setPoolPadding]

/-- C9 witness: dilation `[2, 1]` fails while the network has gained the
fully configured MAX pooling layer. -/
theorem max_pool2d_dilation_failure_after_layer_added_witness :
    aten_max_pool2d trivLib (some [])
        [.trt ⟨7, [1, 4, 4]⟩, .ints [2, 2], .ints [2, 2], .ints [0, 0], .ints [2, 1]] =
      (Option.none,
       some [.pooling (.trt ⟨7, [1, 4, 4]⟩)
               ⟨.MAX, [2, 2], some [2, 2], some [0, 0], Option.none⟩]) :=
  max_pool2d_dilation_failure_after_layer_added trivLib [] (.trt ⟨7, [1, 4, 4]⟩)
    [2, 2] [2, 2] [0, 0] [2, 1] 2 (by rfl) (by decide) (by decide)

/-- C10: the axis-mask helper of `aten::sum` / `aten::max` ignores its rank
parameter entirely and only checks axes are positive, so for an axis
greater than the symbolic tensor's rank both handlers still succeed,
building a reduce layer whose mask has a bit set at position `axis - 1`,
at or beyond the tensor's rank. -/
theorem reduce_axis_mask_no_rank_check :
    (∀ (axes : List ℤ) (n1 n2 : ℕ), _axes_to_trt_axis axes n1 = _axes_to_trt_axis axes n2)
    ∧ (∀ (lib : Lib) (net : Network) (l : TRTTensor) (ax : ℤ) (kd : Bool),
        0 < ax → ax ≤ 32 → (l.shape.length : ℤ) < ax →
        aten_sum lib (some net) [.trt l, .ints [ax], .bool kd] =
          (some [.trt ⟨net.length, []⟩],
           some (net ++ [.reduce (.trt l) .SUM (2 ^ (ax - 1).toNat) kd]))
        ∧ Nat.testBit (2 ^ (ax - 1).toNat) (ax - 1).toNat = true
        ∧ l.shape.length ≤ (ax - 1).toNat)
    ∧ (∀ (net : Network) (l : TRTTensor) (ax : ℤ) (kd : Bool),
        0 < ax → ax ≤ 32 → (l.shape.length : ℤ) < ax →
        aten_max (some net) [.trt l, .int ax, .bool kd] =
          (some [.trt ⟨net.length, []⟩, .pynone],
           some (net ++ [.reduce (.trt l) .MAX (2 ^ (ax - 1).toNat) kd]))) := by
  refine ⟨fun axes n1 n2 => rfl, ?_, ?_⟩
  · intro lib net l ax kd h1 h2 h3
    refine ⟨?_, Nat.testBit_two_pow_self, by omega⟩
    simp [aten_sum, has_trt_tensor, Value.isTrt, Value.shape?, Value.toBool?,
      axes_to_trt_axis_single ax l.shape.length h1 h2, addLayer]
  · intro net l ax kd h1 h2 h3
    simp [aten_max, has_trt_tensor, Value.isTrt, Value.shape?, Value.toBool?,
      axes_to_trt_axis_single ax l.shape.length h1 h2, addLayer]

/-- C10 witness: axis 5 on a rank-2 symbolic tensor — both handlers succeed
with mask bit 4 set. -/
theorem reduce_axis_mask_no_rank_check_witness :
    _axes_to_trt_axis [3] 2 = _axes_to_trt_axis [3] 9
    ∧ (aten_sum trivLib (some []) [.trt ⟨1, [4, 4]⟩, .ints [5], .bool false] =
        (some [.trt ⟨0, []⟩],
         some [.reduce (.trt ⟨1, [4, 4]⟩) .SUM (2 ^ ((5 : ℤ) - 1).toNat) false])
      ∧ Nat.testBit (2 ^ ((5 : ℤ) - 1).toNat) ((5 : ℤ) - 1).toNat = true
      ∧ ([(4 : ℕ), 4]).length ≤ ((5 : ℤ) - 1).toNat)
    ∧ aten_max (some []) [.trt ⟨1, [4, 4]⟩, .int 5, .bool false] =
        (some [.trt ⟨0, []⟩, .pynone],
         some [.reduce (.trt ⟨1, [4, 4]⟩) .MAX (2 ^ ((5 : ℤ) - 1).toNat) false]) :=
  ⟨reduce_axis_mask_no_rank_check.1 [3] 2 9,
   reduce_axis_mask_no_rank_check.2.1 trivLib [] ⟨1, [4, 4]⟩ 5 false
     (by decide) (by decide) (by decide),
   reduce_axis_mask_no_rank_check.2.2 [] ⟨1, [4, 4]⟩ 5 false
     (by decide) (by decide) (by decide)⟩

end Torch2TRT


